import Mathlib

/- Shallow embedding of the ShX shell core (src/cmd/main.go): the quote/escape
   aware tokenizer (parseCommand), the redirection-operator extractor
   (processRedirectionOperators), the tab-completion engine (autocomplete) and
   the read-parse-dispatch cycle of main.  Go strings are modelled as Lean
   strings and the byte scan as a character scan; the file system visible to
   the completion engine is modelled as a list of directory listings. -/

namespace ShX

/-- Fixed list of built-in command names, src/cmd/main.go lines 15-21
(the keys of the builtins map in main, lines 49-55, are the same five names). -/
def builtinCMDs : List String := ["exit", "echo", "type", "pwd", "cd"]

/-- Core loop of parseCommand, src/cmd/main.go lines 376-424.  One
left-to-right scan with state inSingleQuote, inDoubleQuote, escaped; the
word being accumulated (Go: current strings.Builder) is kept in reverse
order.  Char.ofNat 96 is the backquote character of the Go source. -/
def pcAux : List Char → Bool → Bool → Bool → List Char → List String
  | [], _, _, _, cur => if cur = [] then [] else [String.mk cur.reverse]
  | c :: rest, inS, inD, esc, cur =>
    if esc then
      if inD ∧ ¬(c = '$' ∨ c = Char.ofNat 96 ∨ c = '"' ∨ c = '\\' ∨ c = '\n') then
        pcAux rest inS inD false (c :: '\\' :: cur)
      else
        pcAux rest inS inD false (c :: cur)
    else if c = '\\' then
      if inS then pcAux rest inS inD false ('\\' :: cur)
      else pcAux rest inS inD true cur
    else if c = '\'' then
      if ¬ inD then pcAux rest (!inS) inD false cur
      else pcAux rest inS inD false (c :: cur)
    else if c = '"' then
      if ¬ inS then pcAux rest inS (!inD) false cur
      else pcAux rest inS inD false (c :: cur)
    else if c = ' ' then
      if ¬ inS ∧ ¬ inD then
        if cur = [] then pcAux rest inS inD false []
        else String.mk cur.reverse :: pcAux rest inS inD false []
      else pcAux rest inS inD false (c :: cur)
    else
      pcAux rest inS inD false (c :: cur)

/-- parseCommand, src/cmd/main.go lines 376-431: tokenize one command line.
The final flush of a non-empty buffer (lines 426-428) is the nil case of
pcAux. -/
def parseCommand (command : String) : List String :=
  pcAux command.data false false false []

/-- Classification of a token by the switch in processRedirectionOperators,
src/cmd/main.go lines 224-258, in the switch's case order. -/
inductive OpKind where
  | outApp
  | outTrunc
  | errTrunc
  | errApp
  | notOp
deriving DecidableEq

/-- The switch discriminator of processRedirectionOperators: cases
">>", "1>>" then ">", "1>" then "2>" then "2>>" then default. -/
def opKind (tok : String) : OpKind :=
  if tok = ">>" ∨ tok = "1>>" then OpKind.outApp
  else if tok = ">" ∨ tok = "1>" then OpKind.outTrunc
  else if tok = "2>" then OpKind.errTrunc
  else if tok = "2>>" then OpKind.errApp
  else OpKind.notOp

/-- Result of processRedirectionOperators.  The Go function returns the five
values ([]string, string, string, bool, bool); errMsg models the diagnostic
it prints to the shell stderr on the dangling-operator path (none = no
diagnostic). -/
structure RedirResult where
  fields : List String
  stdoutFile : String
  stderrFile : String
  stdoutAppend : Bool
  stderrAppend : Bool
  errMsg : Option String
deriving DecidableEq

/-- The value produced on every dangling-operator error path of
processRedirectionOperators (src/cmd/main.go lines 226-229, 234-237,
241-244, 248-251): all five returns cleared plus the printed diagnostic. -/
def errRedir : RedirResult :=
  { fields := [], stdoutFile := "", stderrFile := "", stdoutAppend := false,
    stderrAppend := false, errMsg := some "syntax error: no file specified for redirection" }

/-- Effect of one operator case of the switch on the stdoutFile variable
(src/cmd/main.go lines 230, 238): the stdout operators assign the filename,
the others leave it alone. -/
def soUpd : OpKind → String → String → String
  | OpKind.outApp, f, _ => f
  | OpKind.outTrunc, f, _ => f
  | OpKind.errTrunc, _, so => so
  | OpKind.errApp, _, so => so
  | OpKind.notOp, _, so => so

/-- Effect of one operator case of the switch on the stderrFile variable
(src/cmd/main.go lines 245, 252). -/
def seUpd : OpKind → String → String → String
  | OpKind.outApp, _, se => se
  | OpKind.outTrunc, _, se => se
  | OpKind.errTrunc, f, _ => f
  | OpKind.errApp, f, _ => f
  | OpKind.notOp, _, se => se

/-- Effect of one operator case of the switch on the stdoutAppend variable:
only the ">>"/"1>>" case assigns it, and only to true (src/cmd/main.go line
231); no case ever resets it to false. -/
def saUpd : OpKind → Bool → Bool
  | OpKind.outApp, _ => true
  | OpKind.outTrunc, sa => sa
  | OpKind.errTrunc, sa => sa
  | OpKind.errApp, sa => sa
  | OpKind.notOp, sa => sa

/-- Effect of one operator case of the switch on the stderrAppend variable:
only the "2>>" case assigns it, and only to true (src/cmd/main.go line
253); no case ever resets it to false. -/
def eaUpd : OpKind → Bool → Bool
  | OpKind.outApp, ea => ea
  | OpKind.outTrunc, ea => ea
  | OpKind.errTrunc, ea => ea
  | OpKind.errApp, _ => true
  | OpKind.notOp, ea => ea

/-- The scan loop of processRedirectionOperators, src/cmd/main.go lines
222-259.  State so/se/sa/ea holds stdoutFile, stderrFile, stdoutAppend,
stderrAppend; acc holds finalFields in reverse.  A non-operator token is
appended to finalFields (i += 1); an operator consumes the following token
as its filename and applies its case's assignments (i += 2); the
one-token alternative is Go's i+1 >= len(fields) bound check: an operator
with no following token yields the cleared error return. -/
def prGo : List String → String → String → Bool → Bool → List String → RedirResult
  | [], so, se, sa, ea, acc =>
    { fields := acc.reverse, stdoutFile := so, stderrFile := se,
      stdoutAppend := sa, stderrAppend := ea, errMsg := none }
  | [tok], so, se, sa, ea, acc =>
    if opKind tok = OpKind.notOp then
      { fields := (tok :: acc).reverse, stdoutFile := so, stderrFile := se,
        stdoutAppend := sa, stderrAppend := ea, errMsg := none }
    else errRedir
  | tok :: f :: rest, so, se, sa, ea, acc =>
    if opKind tok = OpKind.notOp then prGo (f :: rest) so se sa ea (tok :: acc)
    else
      prGo rest (soUpd (opKind tok) f so) (seUpd (opKind tok) f se)
        (saUpd (opKind tok) sa) (eaUpd (opKind tok) ea) acc

/-- processRedirectionOperators, src/cmd/main.go lines 215-261. -/
def processRedirectionOperators (fields : List String) : RedirResult :=
  prGo fields "" "" false false []

/-- strings.TrimSpace, used by main at line 34: strip leading and trailing
whitespace. -/
def trimSpace (s : String) : String :=
  String.mk (((s.data.dropWhile Char.isWhitespace).reverse.dropWhile Char.isWhitespace).reverse)

/-- What one cycle of main (src/cmd/main.go lines 31-62) decides to do with
an input line: nothing, a built-in handler call, or an external execution,
each carrying the command tokens and the redirection plan. -/
inductive Action where
  | noop
  | runBuiltin (fields : List String) (plan : RedirResult)
  | runExternal (fields : List String) (plan : RedirResult)
deriving DecidableEq

/-- The dispatch decision of one iteration of main, src/cmd/main.go lines
33-61: trim; skip empty input; tokenize, skip if no tokens; extract
redirections, skip if no command tokens remain; then dispatch on whether
fields[0] is a key of the builtins map. -/
def dispatchLine (input : String) : Action :=
  if trimSpace input = "" then Action.noop
  else if parseCommand (trimSpace input) = [] then Action.noop
  else if (processRedirectionOperators (parseCommand (trimSpace input))).fields = [] then Action.noop
  else if (processRedirectionOperators (parseCommand (trimSpace input))).fields.headD "" ∈ builtinCMDs then
    Action.runBuiltin (processRedirectionOperators (parseCommand (trimSpace input))).fields
      (processRedirectionOperators (parseCommand (trimSpace input)))
  else
    Action.runExternal (processRedirectionOperators (parseCommand (trimSpace input))).fields
      (processRedirectionOperators (parseCommand (trimSpace input)))

/-- Helper for strings.HasPrefix: does the first list start with the
second. -/
def startsAux : List Char → List Char → Bool
  | _, [] => true
  | [], _ :: _ => false
  | c :: cs, d :: ds => c == d && startsAux cs ds

/-- strings.HasPrefix s p. -/
def strStarts (s p : String) : Bool := startsAux s.data p.data

/-- strings.TrimPrefix s p: remove p from the front of s when present. -/
def trimPre (s p : String) : String :=
  if strStarts s p then String.mk (s.data.drop p.data.length) else s

/-- Lexicographic order on character lists, the order sort.Strings uses. -/
def lexLe : List Char → List Char → Bool
  | [], _ => true
  | _ :: _, [] => false
  | a :: as, b :: bs => if a = b then lexLe as bs else decide (a.toNat < b.toNat)

/-- Insertion step of the sort modelling sort.Strings (main.go line 206). -/
def insertStr (x : String) : List String → List String
  | [] => [x]
  | y :: ys => if lexLe x.data y.data then x :: y :: ys else y :: insertStr x ys

/-- sort.Strings (src/cmd/main.go line 206), modelled as insertion sort. -/
def sortStrings : List String → List String
  | [] => []
  | x :: xs => insertStr x (sortStrings xs)

/-- One entry of a directory listing as seen by os.ReadDir in autocomplete
(src/cmd/main.go lines 180-197).  The Go code reads only the name and the
IsDir flag; isExec carries the execute-permission bit that the spec's
candidate description talks about but the code never inspects. -/
structure DirEntry where
  name : String
  isDir : Bool
  isExec : Bool
deriving DecidableEq

/-- Inner loop of the PATH scan of autocomplete, src/cmd/main.go lines
184-197: skip directories, keep names that start with the prefix and are
not exactly the prefix, deduplicate through the found set.  Returns the
updated found set and match list. -/
def scanDir (pfx : String) : List DirEntry → List String → List String → List String × List String
  | [], found, acc => (found, acc)
  | e :: rest, found, acc =>
    if e.isDir then scanDir pfx rest found acc
    else if strStarts e.name pfx ∧ ¬ e.name = pfx then
      if e.name ∈ found then scanDir pfx rest found acc
      else scanDir pfx rest (e.name :: found) (acc ++ [e.name])
    else scanDir pfx rest found acc

/-- Outer loop of the PATH scan of autocomplete, src/cmd/main.go lines
179-198: the found set persists across directories. -/
def scanDirs (pfx : String) : List (List DirEntry) → List String → List String → List String
  | [], _, acc => acc
  | d :: ds, found, acc =>
    scanDirs pfx ds (scanDir pfx d found acc).1 (scanDir pfx d found acc).2

/-- The whole PATH scan of autocomplete (src/cmd/main.go lines 175-199),
over an abstract list of directory listings (unreadable directories are
skipped by the Go code and are simply absent here). -/
def pathScan (dirs : List (List DirEntry)) (pfx : String) : List String :=
  scanDirs pfx dirs [] []

/-- The built-in matches of autocomplete, src/cmd/main.go lines 167-172. -/
def builtinMatches (pfx : String) : List String :=
  builtinCMDs.filter (fun c => strStarts c pfx && !(c == pfx))

/-- The match set autocomplete works with: built-in matches, or the PATH
scan exactly when no built-in matched (src/cmd/main.go lines 166-199). -/
def acMatches (dirs : List (List DirEntry)) (pfx : String) : List String :=
  if builtinMatches pfx = [] then pathScan dirs pfx else builtinMatches pfx

/-- autocomplete, src/cmd/main.go lines 161-213.  The tabCount argument is
accepted and ignored, exactly as in the source. -/
def autocomplete (dirs : List (List DirEntry)) (pfx : String) (_tabCount : Nat) : String × List String :=
  if pfx = "" then ("", [])
  else if acMatches dirs pfx = [] then ("", [])
  else if (sortStrings (acMatches dirs pfx)).length = 1 then
    (trimPre ((sortStrings (acMatches dirs pfx)).headD "") pfx, [])
  else ("", sortStrings (acMatches dirs pfx))

/-- Where a diagnostic message is written. -/
inductive OutDest where
  | shellOut
  | shellErr
  | toFile (path : String) (app : Bool)
deriving DecidableEq

/-- outputError, src/cmd/main.go lines 362-374: destination and text of the
command-not-found message.  Opening of the target file is abstracted as the
toFile destination (the open-failure fallback at line 366 is outside this
model). -/
def outputError (cmdName stderrFile : String) (appendMode : Bool) : OutDest × String :=
  if ¬ stderrFile = "" then (OutDest.toFile stderrFile appendMode, cmdName ++ ": command not found")
  else (OutDest.shellErr, cmdName ++ ": command not found")

/-- executeCommand, src/cmd/main.go lines 346-353, restricted to its
observable diagnostic: cmd.Run fails whenever the name does not resolve
(resolve models exec.LookPath), and may also fail for a resolvable command
(runFails); in either case the message goes to the shell stdout via
fmt.Println. -/
def executeCommand (resolve : String → Option String) (runFails : Bool) (name : String) :
    Option (OutDest × String) :=
  match resolve name with
  | none => some (OutDest.shellOut, name ++ ": command not found")
  | some _ => if runFails then some (OutDest.shellOut, name ++ ": command not found") else none

/-- executeExternalWithRedirection, src/cmd/main.go lines 301-344,
restricted to its command-not-found diagnostic: with no redirection at all
it delegates to executeCommand (lines 306-309); otherwise it resolves the
name with exec.LookPath and on failure reports through outputError (lines
311-315).  File opening and the successful launch are outside this model. -/
def executeExternalWithRedirection (resolve : String → Option String) (runFails : Bool)
    (name : String) (stdoutFile stderrFile : String) (_stdoutAppend stderrAppend : Bool) :
    Option (OutDest × String) :=
  if stdoutFile = "" ∧ stderrFile = "" then
    executeCommand resolve runFails name
  else
    match resolve name with
    | some _ => none
    | none => some (outputError name stderrFile stderrAppend)

/-- Concatenation of all directory listings. -/
def concatAll {α : Type} : List (List α) → List α
  | [] => []
  | d :: ds => d ++ concatAll ds

/-- Deduplication by name keeping first occurrences. -/
def dedupFirstAux : List String → List String → List String
  | _, [] => []
  | seen, x :: xs => if x ∈ seen then dedupFirstAux seen xs else x :: dedupFirstAux (x :: seen) xs

/-- Deduplication by name keeping first occurrences, empty seen set. -/
def dedupFirst (l : List String) : List String := dedupFirstAux [] l

/-- Follows the spec's words for claim C4 (spec section 4.3): when the
candidate set expands beyond the built-ins, the candidates are exactly the
executable file names found across every directory on the search path,
deduplicated by name; a candidate matches if it starts with the prefix and
is not exactly the prefix. -/
def specExecutableMatches (dirs : List (List DirEntry)) (pfx : String) : List String :=
  dedupFirst (((concatAll dirs).filter
    (fun e => !e.isDir && e.isExec && strStarts e.name pfx && !(e.name == pfx))).map DirEntry.name)

/-- Follows the spec's words for claim C5 (spec section 8): the
whitespace-split of a string, maximal runs of whitespace as separators,
no empty tokens. -/
def wsSplitAux : List Char → List Char → List String
  | [], cur => if cur = [] then [] else [String.mk cur.reverse]
  | c :: rest, cur =>
    if c.isWhitespace then
      if cur = [] then wsSplitAux rest []
      else String.mk cur.reverse :: wsSplitAux rest []
    else wsSplitAux rest (c :: cur)

/-- Follows the spec's words for claim C5: whitespace-split of a string. -/
def wsSplit (s : String) : List String := wsSplitAux s.data []

theorem mk_reverse_ne_empty (cur : List Char) (h : ¬ cur = []) : ¬ String.mk cur.reverse = "" := by
  intro he
  have hd : cur.reverse = ([] : List Char) := congrArg String.data he
  exact h (List.reverse_eq_nil_iff.mp hd)

theorem pcAux_ne_empty (t : String) :
    ∀ (l : List Char) (inS inD esc : Bool) (cur : List Char),
      t ∈ pcAux l inS inD esc cur → ¬ t = "" := by
  intro l
  induction l with
  | nil =>
    intro inS inD esc cur ht
    by_cases hc : cur = []
    · simp [pcAux, hc] at ht
    · simp only [pcAux, if_neg hc] at ht
      rw [List.mem_singleton] at ht
      subst ht
      exact mk_reverse_ne_empty cur hc
  | cons c rest ih =>
    intro inS inD esc cur ht
    simp only [pcAux] at ht
    repeat' split at ht
    all_goals try exact ih _ _ _ _ ht
    all_goals rcases List.mem_cons.mp ht with rfl | hh
    all_goals try exact ih _ _ _ _ hh
    all_goals exact mk_reverse_ne_empty cur (by assumption)

theorem pcAux_clean :
    ∀ (l : List Char) (cur : List Char),
      (∀ c ∈ l, ¬ c = '\'' ∧ ¬ c = '"' ∧ ¬ c = '\\' ∧ (c.isWhitespace = true → c = ' ')) →
      pcAux l false false false cur = wsSplitAux l cur := by
  intro l
  induction l with
  | nil => intro cur _; rfl
  | cons c rest ih =>
    intro cur h
    obtain ⟨h1, h2, h3, h4⟩ := h c (List.mem_cons_self c rest)
    have hrest := fun d hd => h d (List.mem_cons_of_mem c hd)
    by_cases hsp : c = ' '
    · subst hsp
      by_cases hcur : cur = [] <;>
        simp [pcAux, wsSplitAux, hcur, ih [] hrest]
    · have hw : c.isWhitespace = false := by
        cases hw : c.isWhitespace
        · rfl
        · exact absurd (h4 hw) hsp
      simp [pcAux, wsSplitAux, h1, h2, h3, hsp, hw, ih (c :: cur) hrest]

theorem prGo_push (tok : String) (l : List String) (so se : String) (sa ea : Bool)
    (acc : List String) (hk : opKind tok = OpKind.notOp) :
    prGo (tok :: l) so se sa ea acc = prGo l so se sa ea (tok :: acc) := by
  cases l with
  | nil => simp [prGo, hk]
  | cons f rest => simp [prGo, hk]

theorem prGo_op (tok f : String) (l : List String) (so se : String) (sa ea : Bool)
    (acc : List String) (hk : ¬ opKind tok = OpKind.notOp) :
    prGo (tok :: f :: l) so se sa ea acc =
      prGo l (soUpd (opKind tok) f so) (seUpd (opKind tok) f se)
        (saUpd (opKind tok) sa) (eaUpd (opKind tok) ea) acc := by
  simp [prGo, hk]

theorem prGo_err_aux :
    ∀ (n : Nat) (l : List String) (so se : String) (sa ea : Bool) (acc : List String),
      l.length ≤ n → ¬ (prGo l so se sa ea acc).errMsg = none →
      prGo l so se sa ea acc = errRedir := by
  intro n
  induction n with
  | zero =>
    intro l so se sa ea acc hl h
    have hnil : l = [] := List.length_eq_zero.mp (Nat.le_zero.mp hl)
    subst hnil
    simp [prGo] at h
  | succ n ih =>
    intro l so se sa ea acc hl h
    rcases l with _ | ⟨tok, _ | ⟨f, rest2⟩⟩
    · simp [prGo] at h
    · by_cases hk : opKind tok = OpKind.notOp
      · simp [prGo, hk] at h
      · simp [prGo, hk]
    · by_cases hk : opKind tok = OpKind.notOp
      · rw [prGo_push tok (f :: rest2) so se sa ea acc hk] at h ⊢
        exact ih (f :: rest2) so se sa ea (tok :: acc) (by simp at hl ⊢; omega) h
      · rw [prGo_op tok f rest2 so se sa ea acc hk] at h ⊢
        exact ih rest2 _ _ _ _ acc (by simp at hl; omega) h

theorem prGo_append_aux :
    ∀ (n : Nat) (l l2 : List String) (so se : String) (sa ea : Bool) (acc : List String),
      l.length ≤ n → (prGo l so se sa ea acc).errMsg = none →
      prGo (l ++ l2) so se sa ea acc =
        prGo l2 (prGo l so se sa ea acc).stdoutFile (prGo l so se sa ea acc).stderrFile
          (prGo l so se sa ea acc).stdoutAppend (prGo l so se sa ea acc).stderrAppend
          ((prGo l so se sa ea acc).fields.reverse) := by
  intro n
  induction n with
  | zero =>
    intro l l2 so se sa ea acc hl _
    have hnil : l = [] := List.length_eq_zero.mp (Nat.le_zero.mp hl)
    subst hnil
    simp [prGo, List.reverse_reverse]
  | succ n ih =>
    intro l l2 so se sa ea acc hl h
    rcases l with _ | ⟨tok, _ | ⟨f, rest2⟩⟩
    · simp [prGo, List.reverse_reverse]
    · by_cases hk : opKind tok = OpKind.notOp
      · rw [List.singleton_append, prGo_push tok l2 so se sa ea acc hk]
        simp [prGo, hk, List.reverse_reverse]
      · simp [prGo, hk, errRedir] at h
    · by_cases hk : opKind tok = OpKind.notOp
      · rw [prGo_push tok (f :: rest2) so se sa ea acc hk] at h
        rw [show (tok :: f :: rest2) ++ l2 = tok :: ((f :: rest2) ++ l2) from rfl,
          prGo_push tok ((f :: rest2) ++ l2) so se sa ea acc hk,
          prGo_push tok (f :: rest2) so se sa ea acc hk]
        exact ih (f :: rest2) l2 so se sa ea (tok :: acc) (by simp at hl ⊢; omega) h
      · rw [prGo_op tok f rest2 so se sa ea acc hk] at h
        rw [show (tok :: f :: rest2) ++ l2 = tok :: f :: (rest2 ++ l2) from rfl,
          prGo_op tok f (rest2 ++ l2) so se sa ea acc hk,
          prGo_op tok f rest2 so se sa ea acc hk]
        exact ih rest2 l2 _ _ _ _ acc (by simp at hl; omega) h

/-- Claim C1 counterexample: the extractor does treat the token at position 0
as a redirection operator when it equals one of the six operator strings; on
input [">", "out"] the leading ">" is consumed as a stdout redirection whose
target is "out", leaving zero command tokens, instead of being kept as the
command name. -/
theorem firstTokenOperator_cex :
    (processRedirectionOperators [">", "out"]).stdoutFile = "out" ∧
    (processRedirectionOperators [">", "out"]).fields = [] := by decide

/-- Claim C1, amended: operator recognition applies uniformly at every token
position including position 0; a leading token equal to one of the six
operator strings is itself consumed as a redirection operator together with
the following token, exactly as at any later position. -/
theorem firstTokenOperatorAmended (f : String) (rest : List String) :
    processRedirectionOperators (">" :: f :: rest) = prGo rest f "" false false [] ∧
    processRedirectionOperators ("1>" :: f :: rest) = prGo rest f "" false false [] ∧
    processRedirectionOperators (">>" :: f :: rest) = prGo rest f "" true false [] ∧
    processRedirectionOperators ("1>>" :: f :: rest) = prGo rest f "" true false [] ∧
    processRedirectionOperators ("2>" :: f :: rest) = prGo rest "" f false false [] ∧
    processRedirectionOperators ("2>>" :: f :: rest) = prGo rest "" f false true [] :=
  ⟨rfl, rfl, rfl, rfl, rfl, rfl⟩

/-- Claim C2 counterexample: for an unresolvable command with no redirection
at all, the dispatcher writes the command-not-found message to the shell's
own stdout (fmt.Println in executeCommand), not to its stderr as the claim
states. -/
theorem notFoundToStdout_cex :
    executeExternalWithRedirection (fun _ => none) false "foo" "" "" false false =
      some (OutDest.shellOut, "foo: command not found") ∧
    ¬ (OutDest.shellOut = OutDest.shellErr) := by decide

/-- Claim C2, amended: for an unresolvable command name, if a stderr target
is specified the message goes into that target file per plan; if no stderr
target but a stdout target is specified, it goes to the shell's own stderr;
if no redirection at all is specified, it goes to the shell's own stdout. -/
theorem notFoundRouting (resolve : String → Option String) (runFails : Bool)
    (name so se : String) (sa ea : Bool) (h : resolve name = none) :
    (¬ se = "" →
      executeExternalWithRedirection resolve runFails name so se sa ea =
        some (OutDest.toFile se ea, name ++ ": command not found")) ∧
    (se = "" → ¬ so = "" →
      executeExternalWithRedirection resolve runFails name so se sa ea =
        some (OutDest.shellErr, name ++ ": command not found")) ∧
    (se = "" → so = "" →
      executeExternalWithRedirection resolve runFails name so se sa ea =
        some (OutDest.shellOut, name ++ ": command not found")) := by
  refine ⟨?_, ?_, ?_⟩
  · intro hse
    simp [executeExternalWithRedirection, h, outputError, hse]
  · intro hse hso
    simp [executeExternalWithRedirection, h, outputError, hse, hso]
  · intro hse hso
    simp [executeExternalWithRedirection, executeCommand, h, hse, hso]

/-- Witness for notFoundRouting at a concrete input. -/
theorem notFoundRouting_w :
    executeExternalWithRedirection (fun _ => none) false "foo" "log.txt" "" false false =
      some (OutDest.shellErr, "foo: command not found") :=
  (notFoundRouting (fun _ => none) false "foo" "log.txt" "" false false rfl).2.1 rfl (by decide)

/-- Claim C3 counterexample: after ">> f > g" the extractor reports target g
with the append flag still true, because the truncate cases of the switch
never clear stdoutAppend; the claim predicts append false. -/
theorem appendFlagSticky_cex :
    (processRedirectionOperators ["c", ">>", "f", ">", "g"]).stdoutFile = "g" ∧
    (processRedirectionOperators ["c", ">>", "f", ">", "g"]).stdoutAppend = true := by decide

/-- Claim C3, amended: when the same target stream is redirected more than
once, the last occurrence determines the target path, but the append flag is
only ever set by append operators and never cleared by truncate operators,
so a truncate operator following an append operator keeps append true. -/
theorem laterRedirectionWins (fields : List String) (g : String)
    (h : (processRedirectionOperators fields).errMsg = none) :
    (processRedirectionOperators (fields ++ [">", g])).stdoutFile = g ∧
    (processRedirectionOperators (fields ++ [">", g])).stdoutAppend =
      (processRedirectionOperators fields).stdoutAppend ∧
    (processRedirectionOperators (fields ++ [">>", g])).stdoutFile = g ∧
    (processRedirectionOperators (fields ++ [">>", g])).stdoutAppend = true ∧
    (processRedirectionOperators (fields ++ ["2>", g])).stderrFile = g ∧
    (processRedirectionOperators (fields ++ ["2>", g])).stderrAppend =
      (processRedirectionOperators fields).stderrAppend := by
  have h1 := prGo_append_aux fields.length fields [">", g] "" "" false false [] (Nat.le_refl _) h
  have h2 := prGo_append_aux fields.length fields [">>", g] "" "" false false [] (Nat.le_refl _) h
  have h3 := prGo_append_aux fields.length fields ["2>", g] "" "" false false [] (Nat.le_refl _) h
  simp only [processRedirectionOperators]
  rw [h1, h2, h3]
  exact ⟨rfl, rfl, rfl, rfl, rfl, rfl⟩

/-- Witness for laterRedirectionWins at a concrete input. -/
theorem laterRedirectionWins_w :
    (processRedirectionOperators (["c", ">>", "f"] ++ [">", "g"])).stdoutFile = "g" ∧
    (processRedirectionOperators (["c", ">>", "f"] ++ [">", "g"])).stdoutAppend =
      (processRedirectionOperators ["c", ">>", "f"]).stdoutAppend ∧
    (processRedirectionOperators (["c", ">>", "f"] ++ [">>", "g"])).stdoutFile = "g" ∧
    (processRedirectionOperators (["c", ">>", "f"] ++ [">>", "g"])).stdoutAppend = true ∧
    (processRedirectionOperators (["c", ">>", "f"] ++ ["2>", "g"])).stderrFile = "g" ∧
    (processRedirectionOperators (["c", ">>", "f"] ++ ["2>", "g"])).stderrAppend =
      (processRedirectionOperators ["c", ">>", "f"]).stderrAppend :=
  laterRedirectionWins ["c", ">>", "f"] "g" (by decide)

/-- Claim C4 (code bug): with zero built-in matches the completion engine
expands to the PATH scan, but the scan admits every non-directory file name,
not only executable ones: a non-executable file notes.txt is offered as a
completion, while the candidate set described by the spec (and by the
code's own comment, src/cmd/main.go line 174) is empty. -/
theorem completionIncludesNonExecutable :
    builtinMatches "no" = [] ∧
    acMatches [[{ name := "notes.txt", isDir := false, isExec := false }]] "no" = ["notes.txt"] ∧
    specExecutableMatches [[{ name := "notes.txt", isDir := false, isExec := false }]] "no" = [] ∧
    autocomplete [[{ name := "notes.txt", isDir := false, isExec := false }]] "no" 1 =
      ("tes.txt", []) := by decide

/-- Claim C5 counterexample: the string of a, tab, b contains no quotes and
no backslashes, yet tokenize keeps it as one token while the
whitespace-split separates it at the tab: only the space character is a word
boundary for the tokenizer. -/
theorem tokenizeWhitespaceSplit_cex :
    (∀ c ∈ ("a\tb" : String).data, ¬ c = '\'' ∧ ¬ c = '"' ∧ ¬ c = '\\') ∧
    ¬ parseCommand "a\tb" = wsSplit "a\tb" ∧
    parseCommand "a\tb" = ["a\tb"] ∧
    wsSplit "a\tb" = ["a", "b"] := by decide

/-- Claim C5, amended: for every string containing no quote characters, no
backslashes, and no whitespace characters other than the space character,
tokenize equals the whitespace-split of the string. -/
theorem tokenizeSpaceSplit (s : String)
    (h : ∀ c ∈ s.data, ¬ c = '\'' ∧ ¬ c = '"' ∧ ¬ c = '\\' ∧ (c.isWhitespace = true → c = ' ')) :
    parseCommand s = wsSplit s :=
  pcAux_clean s.data [] h

/-- Witness for tokenizeSpaceSplit at a concrete input. -/
theorem tokenizeSpaceSplit_w : parseCommand "foo  bar" = wsSplit "foo  bar" :=
  tokenizeSpaceSplit "foo  bar" (by decide)

/-- Claim C6: while escaped, inside double quotes the backslash is kept
literally unless the next character is dollar, backquote, double quote,
backslash or newline, in which case only that character is kept; outside
any quotes the backslash is dropped and the following character kept
literally; inside single quotes a backslash is copied verbatim and never
starts an escape. -/
theorem escapeRules (rest : List Char) (c : Char) (cur : List Char) (inS : Bool) :
    (¬ c = '$' → ¬ c = Char.ofNat 96 → ¬ c = '"' → ¬ c = '\\' → ¬ c = '\n' →
      pcAux (c :: rest) inS true true cur = pcAux rest inS true false (c :: '\\' :: cur)) ∧
    ((c = '$' ∨ c = Char.ofNat 96 ∨ c = '"' ∨ c = '\\' ∨ c = '\n') →
      pcAux (c :: rest) inS true true cur = pcAux rest inS true false (c :: cur)) ∧
    (pcAux ('\\' :: c :: rest) false false false cur = pcAux rest false false false (c :: cur)) ∧
    (pcAux ('\\' :: rest) true false false cur = pcAux rest true false false ('\\' :: cur)) := by
  refine ⟨?_, ?_, rfl, rfl⟩
  · intro h1 h2 h3 h4 h5
    simp [pcAux, h1, h2, h3, h4, h5]
  · intro h
    rcases h with h | h | h | h | h <;> subst h <;> simp [pcAux]

/-- Witness for escapeRules at concrete inputs. -/
theorem escapeRules_w :
    pcAux ['x'] false true true [] = pcAux [] false true false ['x', '\\'] ∧
    pcAux ['$'] false true true [] = pcAux [] false true false ['$'] ∧
    pcAux ['\\', 'q'] false false false [] = pcAux [] false false false ['q'] ∧
    pcAux ['\\'] true false false [] = pcAux [] true false false ['\\'] :=
  ⟨(escapeRules [] 'x' [] false).1 (by decide) (by decide) (by decide) (by decide) (by decide),
   (escapeRules [] '$' [] false).2.1 (Or.inl rfl),
   (escapeRules [] 'q' [] false).2.2.1,
   (escapeRules [] 'x' [] false).2.2.2⟩

/-- Claim C7: an operator reached by the scan with no following token fails
with the no-file-specified syntax error and a fully cleared result, so the
extractor returns zero command tokens; for the spec's example input the
whole command line "ls >" is dispatched as a no-op. -/
theorem danglingOperatorDiscards (tok : String) (so se : String) (sa ea : Bool)
    (acc : List String) (h : ¬ opKind tok = OpKind.notOp) :
    prGo [tok] so se sa ea acc = errRedir ∧
    processRedirectionOperators ["ls", ">"] = errRedir ∧
    dispatchLine "ls >" = Action.noop := by
  refine ⟨?_, by decide, by decide⟩
  simp [prGo, h]

/-- Witness for danglingOperatorDiscards at a concrete input. -/
theorem danglingOperatorDiscards_w :
    prGo [">"] "a" "b" true false ["x"] = errRedir ∧
    processRedirectionOperators ["ls", ">"] = errRedir ∧
    dispatchLine "ls >" = Action.noop :=
  danglingOperatorDiscards ">" "a" "b" true false ["x"] (by decide)

/-- Claim C8: whenever the match set is a single candidate, autocomplete
returns that candidate with the prefix removed as the unique suffix,
independently of the attempt number; in particular prefix "pw" against the
built-ins yields the unique suffix "d". -/
theorem uniqueMatchSuffix (dirs : List (List DirEntry)) (pfx : String) (n : Nat) (m : String)
    (h : acMatches dirs pfx = [m]) :
    autocomplete dirs pfx n = (trimPre m pfx, []) ∧
    (∀ k, autocomplete dirs pfx k = autocomplete dirs pfx n) ∧
    autocomplete [] "pw" 1 = ("d", []) := by
  refine ⟨?_, fun k => rfl, by decide⟩
  have hp : ¬ pfx = "" := by
    intro he
    subst he
    have hb : builtinMatches "" = builtinCMDs := by decide
    simp only [acMatches, hb] at h
    simp [builtinCMDs] at h
  simp [autocomplete, hp, h, sortStrings, insertStr]

/-- Witness for uniqueMatchSuffix at a concrete input. -/
theorem uniqueMatchSuffix_w : autocomplete [] "pw" 3 = (trimPre "pwd" "pw", []) :=
  (uniqueMatchSuffix [] "pw" 3 "pwd" (by decide)).1

/-- Claim C9: when the extractor reports the dangling-operator syntax error
its result is fully cleared, no matter what targets or flags earlier
operators in the token sequence had established. -/
theorem redirectionErrorClearsAll (fields : List String)
    (h : ¬ (processRedirectionOperators fields).errMsg = none) :
    processRedirectionOperators fields =
      { fields := [], stdoutFile := "", stderrFile := "", stdoutAppend := false,
        stderrAppend := false,
        errMsg := some "syntax error: no file specified for redirection" } :=
  prGo_err_aux fields.length fields "" "" false false [] (Nat.le_refl _) h

/-- Witness for redirectionErrorClearsAll at a concrete input where earlier
operators had already established a stdout target. -/
theorem redirectionErrorClearsAll_w :
    processRedirectionOperators ["c", ">", "f", ">>"] =
      { fields := [], stdoutFile := "", stderrFile := "", stdoutAppend := false,
        stderrAppend := false,
        errMsg := some "syntax error: no file specified for redirection" } :=
  redirectionErrorClearsAll ["c", ">", "f", ">>"] (by decide)

/-- Claim C10: the tokenizer never emits an empty token; a quoted empty
string contributes no token at all, and a line consisting only of quoted
empty strings dispatches nothing. -/
theorem noEmptyTokens :
    (∀ (s t : String), t ∈ parseCommand s → ¬ t = "") ∧
    parseCommand "\x27\x27" = [] ∧
    parseCommand "\"\"" = [] ∧
    dispatchLine "\x27\x27 \"\"" = Action.noop := by
  refine ⟨?_, by decide, by decide, by decide⟩
  intro s t ht
  exact pcAux_ne_empty t s.data false false false [] ht

/-- Witness for noEmptyTokens at a concrete input. -/
theorem noEmptyTokens_w : ¬ "xy" = "" :=
  noEmptyTokens.1 "xy" "xy" (by decide)

end ShX
